import Mathlib

/-!
Verification of the Greppy finding-identity and suppression engine.

This file is a shallow embedding, in Lean 4, of the core services of the
`greppy` VS Code extension:

* `IdService` (`src/services/id-service.ts`): persistent fingerprints
  (SHA-256 over `patternName:relativePath:matchedContent`, truncated to 24
  hex characters), context extraction, and the two-tier (exact / fuzzy)
  suppression matcher with its Levenshtein-based text similarity.
* `GrepService` (same file, second class): the analysis orchestrator —
  tool dispatch, per-pattern execution with its error handling, and the
  ripgrep output parser.
* `DecoratorService` (`src/services/decorator-service.ts`): the ignore
  state machine (`ignoreFinding` / `addToWorkspaceIgnored` /
  `updateDecorationsAfterIgnore`) and the suppression filter of
  `updateFindings`.
* `PatternManager.isPatternSupportedForFileType`
  (`src/patterns/pattern-manager.ts`).

Modelling conventions: JavaScript strings are Lean `String`s (the data
handled by the program is ASCII, so UTF-16 code-unit indexing agrees with
`String.data` indexing); JavaScript `number`s holding line numbers,
timestamps and exit codes are `Int`; the floating-point similarity score
is modelled as an exact rational (`ℚ`); `undefined`-able fields are
`Option`; file-system reads and subprocess invocations are passed in as
explicit data (`Option String` for a readable file, `ExecResult` for a
process outcome), so every function is pure and executable.
-/

namespace Greppy

/-- Scanner kind, `PatternConfig.tool` in `models/types.ts`:
`"ripgrep" | "weggli"`. -/
inductive Tool where
  | ripgrep
  | weggli
deriving DecidableEq, Repr

/-- Severity levels of `models/types.ts` (the decorator additionally
handles `"medium"`, so it is included). -/
inductive Severity where
  | info
  | warning
  | medium
  | critical
deriving DecidableEq, Repr

/-- `PatternConfig` of `models/types.ts`, with the `supportedFileTypes`
field used by `PatternManager.isPatternSupportedForFileType`.  Optional
fields are `Option`. -/
structure PatternConfig where
  name : String
  description : String
  tool : Tool
  pattern : String
  options : Option (List String) := none
  severity : Severity
  supportedFileTypes : Option (List String) := none
deriving DecidableEq, Repr

/-- `FindingResult` of `models/types.ts`. -/
structure FindingResult where
  id : String
  persistentId : Option String := none
  patternName : String
  patternDescription : String
  tool : Tool
  severity : Severity
  filePath : String
  lineNumber : Int
  matchedContent : String
  contextContent : Option String := none
  codeIndicator : Option String := none
  timestamp : Int
  contextStart : Option Int := none
  contextEnd : Option Int := none
deriving DecidableEq, Repr

/-- `IgnoredFinding` of `models/types.ts`: one persisted suppression
record. -/
structure IgnoredFinding where
  persistentId : String
  id : String
  patternName : String
  filePath : String
  lineNumber : Int
  matchedContent : String
  timestamp : Int
deriving DecidableEq, Repr

/-! ## SHA-256 (`crypto.createHash("sha256")`), on `Nat` words mod 2^32 -/

/-- Reduce to a 32-bit word. -/
def w32 (n : Nat) : Nat := n % 4294967296

/-- 32-bit right rotation. -/
def rotr32 (x n : Nat) : Nat := w32 ((x >>> n) ||| (x <<< (32 - n)))

/-- SHA-256 `Ch` function; complement is xor with the all-ones word. -/
def ch32 (e f g : Nat) : Nat := (e &&& f) ^^^ ((4294967295 ^^^ e) &&& g)

/-- SHA-256 `Maj` function. -/
def maj32 (a b c : Nat) : Nat := (a &&& b) ^^^ (a &&& c) ^^^ (b &&& c)

/-- SHA-256 Σ0. -/
def bigSigma0 (x : Nat) : Nat := rotr32 x 2 ^^^ rotr32 x 13 ^^^ rotr32 x 22

/-- SHA-256 Σ1. -/
def bigSigma1 (x : Nat) : Nat := rotr32 x 6 ^^^ rotr32 x 11 ^^^ rotr32 x 25

/-- SHA-256 σ0. -/
def smallSigma0 (x : Nat) : Nat := rotr32 x 7 ^^^ rotr32 x 18 ^^^ (x >>> 3)

/-- SHA-256 σ1. -/
def smallSigma1 (x : Nat) : Nat := rotr32 x 17 ^^^ rotr32 x 19 ^^^ (x >>> 10)

/-- The 64 SHA-256 round constants. -/
def sha256K : List Nat :=
  [1116352408, 1899447441, 3049323471, 3921009573, 961987163,
   1508970993, 2453635748, 2870763221, 3624381080, 310598401,
   607225278, 1426881987, 1925078388, 2162078206, 2614888103,
   3248222580, 3835390401, 4022224774, 264347078, 604807628,
   770255983, 1249150122, 1555081692, 1996064986, 2554220882,
   2821834349, 2952996808, 3210313671, 3336571891, 3584528711,
   113926993, 338241895, 666307205, 773529912, 1294757372,
   1396182291, 1695183700, 1986661051, 2177026350, 2456956037,
   2730485921, 2820302411, 3259730800, 3345764771, 3516065817,
   3600352804, 4094571909, 275423344, 430227734, 506948616,
   659060556, 883997877, 958139571, 1322822218, 1537002063,
   1747873779, 1955562222, 2024104815, 2227730452, 2361852424,
   2428436474, 2756734187, 3204031479, 3329325298]

/-- Working state of the compression function: eight 32-bit words. -/
structure Hash8 where
  a : Nat
  b : Nat
  c : Nat
  d : Nat
  e : Nat
  f : Nat
  g : Nat
  h : Nat
deriving DecidableEq, Repr

/-- SHA-256 initial hash value. -/
def sha256Init : Hash8 :=
  ⟨1779033703, 3144134277,
   1013904242, 2773480762,
   1359893119, 2600822924,
   528734635, 1541459225⟩

/-- One compression round; `wk` is the round constant plus schedule word. -/
def sha256Round (s : Hash8) (wk : Nat) : Hash8 :=
  let t1 := w32 (s.h + bigSigma1 s.e + ch32 s.e s.f s.g + wk)
  let t2 := w32 (bigSigma0 s.a + maj32 s.a s.b s.c)
  ⟨w32 (t1 + t2), s.a, s.b, s.c, w32 (s.d + t1), s.e, s.f, s.g⟩

/-- Extend the message schedule: `acc` holds the schedule computed so far
in reverse order (head is the most recent word); `n` words remain to be
produced.  `w[i] = σ1 w[i-2] + w[i-7] + σ0 w[i-15] + w[i-16] (mod 2^32)`. -/
def extendSchedule (acc : List Nat) : Nat → List Nat
  | 0 => acc
  | n + 1 =>
      extendSchedule
        (w32 (smallSigma1 (acc.getD 1 0) + acc.getD 6 0 +
              smallSigma0 (acc.getD 14 0) + acc.getD 15 0) :: acc) n

/-- The 64-word message schedule of one 16-word block. -/
def messageSchedule (block : List Nat) : List Nat :=
  (extendSchedule block.reverse 48).reverse

/-- Add two hash states componentwise mod 2^32. -/
def addHash8 (x y : Hash8) : Hash8 :=
  ⟨w32 (x.a + y.a), w32 (x.b + y.b), w32 (x.c + y.c), w32 (x.d + y.d),
   w32 (x.e + y.e), w32 (x.f + y.f), w32 (x.g + y.g), w32 (x.h + y.h)⟩

/-- Compress one 512-bit block into the running hash state. -/
def compressBlock (h : Hash8) (block : List Nat) : Hash8 :=
  let s := ((messageSchedule block).zip sha256K).foldl
    (fun st p => sha256Round st (w32 (p.1 + p.2))) h
  addHash8 h s

/-- Big-endian bytes of a 64-bit length value. -/
def lenBytes64 (n : Nat) : List Nat :=
  [n >>> 56 % 256, n >>> 48 % 256, n >>> 40 % 256, n >>> 32 % 256,
   n >>> 24 % 256, n >>> 16 % 256, n >>> 8 % 256, n % 256]

/-- SHA-256 padding: append `0x80`, zero bytes to 56 mod 64, and the
64-bit big-endian bit length. -/
def padMessage (msg : List Nat) : List Nat :=
  let len := msg.length
  let zeros := (64 + 55 - (len % 64)) % 64
  msg ++ 0x80 :: List.replicate zeros 0 ++ lenBytes64 (len * 8)

/-- Split a byte list into 64-byte chunks. -/
def chunks64 (l : List Nat) : List (List Nat) :=
  if h : l = [] then []
  else l.take 64 :: chunks64 (l.drop 64)
termination_by l.length
decreasing_by
  simp only [List.length_drop]
  have : 0 < l.length := List.length_pos.mpr h
  omega

/-- Combine bytes into big-endian 32-bit words, four at a time. -/
def bytesToWords : List Nat → List Nat
  | b1 :: b2 :: b3 :: b4 :: rest =>
      (b1 * 16777216 + b2 * 65536 + b3 * 256 + b4) :: bytesToWords rest
  | _ => []

/-- SHA-256 over a byte list, producing the final hash state. -/
def sha256Bytes (msg : List Nat) : Hash8 :=
  ((chunks64 (padMessage msg)).map bytesToWords).foldl compressBlock sha256Init

/-- Big-endian bytes of one 32-bit word. -/
def wordBytes (w : Nat) : List Nat :=
  [w >>> 24 % 256, w >>> 16 % 256, w >>> 8 % 256, w % 256]

/-- The 32 digest bytes of a final hash state. -/
def digestBytes (s : Hash8) : List Nat :=
  wordBytes s.a ++ wordBytes s.b ++ wordBytes s.c ++ wordBytes s.d ++
  wordBytes s.e ++ wordBytes s.f ++ wordBytes s.g ++ wordBytes s.h

/-- Lower-case hex digit for a value below 16. -/
def hexDigitChar (n : Nat) : Char :=
  if n < 10 then Char.ofNat (48 + n) else Char.ofNat (87 + n)

/-- Lower-case hex rendering of a byte list, two digits per byte. -/
def bytesToHexChars : List Nat → List Char
  | [] => []
  | b :: bs => hexDigitChar (b / 16 % 16) :: hexDigitChar (b % 16) :: bytesToHexChars bs

/-- UTF-8 encoding of one scalar value (`hash.update(s)` treats its
string argument as UTF-8). -/
def utf8EncodeChar (c : Char) : List Nat :=
  let n := c.toNat
  if n < 0x80 then [n]
  else if n < 0x800 then
    [0xC0 ||| (n >>> 6), 0x80 ||| (n &&& 0x3F)]
  else if n < 0x10000 then
    [0xE0 ||| (n >>> 12), 0x80 ||| ((n >>> 6) &&& 0x3F), 0x80 ||| (n &&& 0x3F)]
  else
    [0xF0 ||| (n >>> 18), 0x80 ||| ((n >>> 12) &&& 0x3F),
     0x80 ||| ((n >>> 6) &&& 0x3F), 0x80 ||| (n &&& 0x3F)]

/-- UTF-8 bytes of a string. -/
def utf8Bytes (s : String) : List Nat := s.data.flatMap utf8EncodeChar

/-- Hex digest characters of the SHA-256 of a string, as in
`crypto.createHash("sha256").update(s).digest("hex")`. -/
def sha256HexChars (s : String) : List Char :=
  bytesToHexChars (digestBytes (sha256Bytes (utf8Bytes s)))

/-- Hex digest of the SHA-256 of a string. -/
def sha256HexStr (s : String) : String := ⟨sha256HexChars s⟩

/-! ## IdService: fingerprints -/

/-- JavaScript `s.substring(0, n)` (ASCII data, so code units = chars). -/
def jsSubstring0 (s : String) (n : Nat) : String := ⟨s.data.take n⟩

/-- Split a character list on a separator character (JavaScript
`s.split(sep)` for a one-character separator). -/
def splitOnChar (sep : Char) : List Char → List (List Char)
  | [] => [[]]
  | c :: cs =>
      match splitOnChar sep cs with
      | [] => [[]]
      | l :: ls => if c = sep then [] :: l :: ls else (c :: l) :: ls

/-- JavaScript `s.split(sep)` for a one-character separator. -/
def jsSplit (sep : Char) (s : String) : List String :=
  (splitOnChar sep s.data).map (fun l => ⟨l⟩)

/-- JavaScript `s.trim()`: strip whitespace from both ends (the data
handled here is ASCII, where JS and Lean whitespace agree). -/
def jsTrim (s : String) : String :=
  ⟨((s.data.dropWhile Char.isWhitespace).reverse.dropWhile Char.isWhitespace).reverse⟩

/-- JavaScript `Math.max` on integers. -/
def jsMaxI (a b : Int) : Int := if a ≤ b then b else a

/-- JavaScript `Math.min` on integers. -/
def jsMinI (a b : Int) : Int := if a ≤ b then a else b

/-- `IdService.getRelativeFilePath`: when a workspace folder contains the
file, the path is `filePath.substring(workspaceFolder.uri.fsPath.length)`;
otherwise the absolute path is returned unchanged.  The workspace root is
passed in explicitly (`none` models "no workspace folder found"). -/
def getRelativeFilePath (workspaceRoot : Option String) (filePath : String) : String :=
  match workspaceRoot with
  | some root => ⟨filePath.data.drop root.data.length⟩
  | none => filePath

/-- `IdService.generatePersistentId`: SHA-256 of
`patternName:relativePath:matchedContent`, hex, truncated to 24 chars. -/
def generatePersistentId (workspaceRoot : Option String) (f : FindingResult) : String :=
  jsSubstring0
    (sha256HexStr (f.patternName ++ ":" ++ getRelativeFilePath workspaceRoot f.filePath
      ++ ":" ++ f.matchedContent)) 24

/-! ## Path helpers used by the fuzzy matcher -/

/-- Characters after the last `/` of a character list. -/
def basenameChars (l : List Char) : List Char :=
  (l.reverse.takeWhile (fun c => c ≠ '/')).reverse

/-- Node `path.basename` for the paths this program handles (file paths,
which never end in a path separator): the substring after the last `/`. -/
def basename (s : String) : String := ⟨basenameChars s.data⟩

/-- JavaScript `s.endsWith(t)`: `t` is a suffix of `s`. -/
def jsEndsWith (s t : String) : Bool := t.data.isSuffixOf s.data

/-! ## Levenshtein distance and string similarity
(`IdService.calculateStringSimilarity`) -/

/-- Inner loop of one DP row: walk the remaining characters of `str2`
together with a sliding window on the previous row.  At column `j+1`,
`diag = d[i-1][j]`, `up = d[i-1][j+1]`, `left = d[i][j]`, and the new
entry is `min (d[i-1][j+1] + 1) (min (d[i][j] + 1) (d[i-1][j] + cost))` —
deletion, insertion, substitution, exactly the `Math.min` of the source. -/
def levRowLoop (c1 : Char) : List Char → List Nat → Nat → List Nat
  | c2 :: cs, diag :: rest, left =>
      let up := rest.headD 0
      let cur := min (up + 1) (min (left + 1) (diag + if c1 = c2 then 0 else 1))
      cur :: levRowLoop c1 cs rest cur
  | _, _, _ => []

/-- Row `i` of the DP matrix: `d[i][0] = i`, then the inner loop. -/
def levRow (c1 : Char) (s2 : List Char) (prev : List Nat) (i : Nat) : List Nat :=
  i :: levRowLoop c1 s2 prev i

/-- Outer loop over the characters of `str1`, producing the final row. -/
def levRows (s2 : List Char) : List Char → List Nat → Nat → List Nat
  | [], prev, _ => prev
  | c1 :: cs, prev, i => levRows s2 cs (levRow c1 s2 prev (i + 1)) (i + 1)

/-- The DP matrix of the source, computed row by row; the result is
`d[m][n]`, the last entry of the final row (row 0 is `0, 1, ..., n`). -/
def levenshtein (s1 s2 : List Char) : Nat :=
  (levRows s2 s1 (List.range (s2.length + 1)) 0).getLastD 0

/-- The recurrence satisfied by the source's DP matrix entries `d[i][j]`
(`d[0][j] = j`, `d[i][0] = i`, otherwise the three-way minimum with the
cost of comparing `str1[i-1]` and `str2[j-1]`).  `levenshtein` is proved
to compute `levDP s1 s2 s1.length s2.length`. -/
def levDP (s1 s2 : List Char) : Nat → Nat → Nat
  | 0, j => j
  | i + 1, 0 => i + 1
  | i + 1, j + 1 =>
      min (levDP s1 s2 i (j + 1) + 1)
        (min (levDP s1 s2 (i + 1) j + 1)
          (levDP s1 s2 i j + if s1.getD i ' ' = s2.getD j ' ' then 0 else 1))

/-- `IdService.calculateStringSimilarity`: 0 when either string is empty,
otherwise `1 - d[m][n] / max(m, n)`.  The JavaScript floating-point score
is modelled as an exact rational. -/
def calculateStringSimilarity (str1 str2 : String) : ℚ :=
  let m := str1.data.length
  let n := str2.data.length
  if m = 0 ∨ n = 0 then 0
  else 1 - (levenshtein str1.data str2.data : ℚ) / ((max m n : ℕ) : ℚ)

/-- The text-similarity acceptance test of the fuzzy tier:
`similarity > 0.7` (a strict comparison in the source). -/
def textSimilarOK (str1 str2 : String) : Bool :=
  decide ((7 : ℚ) / 10 < calculateStringSimilarity str1 str2)

/-- Modelled from the spec: "normalized text similarity between
`record.matchedText` and `finding.matchedText` is `>= 0.70`" — the
spec-side acceptance predicate, with an inclusive threshold, stated for
comparison with the code's `textSimilarOK`. -/
def specTextSimilarAccept (str1 str2 : String) : Bool :=
  decide ((7 : ℚ) / 10 ≤ calculateStringSimilarity str1 str2)

/-! ## ContextExtractor (`IdService.getContextContent`, `enhanceFinding`) -/

/-- Result of a successful context read. -/
structure ContextInfo where
  content : String
  startLine : Int
  endLine : Int
deriving DecidableEq, Repr

/-- JavaScript `Array.prototype.slice(start, stop)` with its index
normalization (negative indices count from the end, results clamped). -/
def jsSliceList {α : Type} (l : List α) (start stop : Int) : List α :=
  let len : Int := l.length
  let s := if start < 0 then jsMaxI (len + start) 0 else jsMinI start len
  let t := if stop < 0 then jsMaxI (len + stop) 0 else jsMinI stop len
  (l.drop s.toNat).take (t - s).toNat

/-- `IdService.getContextContent`: the file content is passed in as
`Option String` (`none` models a rejected `fs.promises.readFile`, which
the source catches and turns into `undefined`).  On a successful read the
window `[max(1, line - c), min(lines.length, line + c)]` is sliced out of
the `"\n"`-split lines and joined. -/
def getContextContent (fileContent : Option String) (lineNumber contextLines : Int) :
    Option ContextInfo :=
  match fileContent with
  | none => none
  | some content =>
      let lines := jsSplit '\n' content
      let startLine := jsMaxI 1 (lineNumber - contextLines)
      let endLine := jsMinI (lines.length : Int) (lineNumber + contextLines)
      some ⟨String.intercalate "\n" (jsSliceList lines (startLine - 1) endLine),
            startLine, endLine⟩

/-- `IdService.CONTEXT_LINES`. -/
def CONTEXT_LINES : Int := 3

/-- `IdService.enhanceFinding`: attach the context fields when the
context read succeeds (the finding is produced either way), then set the
persistent id. -/
def enhanceFinding (workspaceRoot : Option String) (fileContent : Option String)
    (f : FindingResult) : FindingResult :=
  let ef :=
    match getContextContent fileContent f.lineNumber CONTEXT_LINES with
    | some ctx =>
        { f with contextContent := some ctx.content,
                 contextStart := some ctx.startLine,
                 contextEnd := some ctx.endLine }
    | none => f
  { ef with persistentId := some (generatePersistentId workspaceRoot ef) }

/-! ## SuppressionMatcher (`IdService.findMatchingIgnoredFinding`) -/

/-- The fuzzy-tier candidate filter, in the source's guard order: same
pattern name; same relative path or the ignored path ends with
`"/" ++ basename(relativePath)`; line delta at most 15; text similarity
above the threshold. -/
def fuzzyCandidate (workspaceRoot : Option String) (relativePath : String)
    (f : FindingResult) (ig : IgnoredFinding) : Bool :=
  if ig.patternName ≠ f.patternName then false
  else if getRelativeFilePath workspaceRoot ig.filePath ≠ relativePath
      ∧ jsEndsWith (getRelativeFilePath workspaceRoot ig.filePath)
          ("/" ++ basename relativePath) = false then
    false
  else if 15 < (ig.lineNumber - f.lineNumber).natAbs then false
  else textSimilarOK ig.matchedContent f.matchedContent

/-- The fuzzy tier: filter the records and return the id of the first
candidate (`similarFindings[0].id`), if any. -/
def fuzzyMatch (workspaceRoot : Option String) (f : FindingResult)
    (ignoredFindings : List IgnoredFinding) : Option String :=
  let relativePath := getRelativeFilePath workspaceRoot f.filePath
  let similarFindings := ignoredFindings.filter (fuzzyCandidate workspaceRoot relativePath f)
  match similarFindings with
  | [] => none
  | x :: _ => some x.id

/-- `IdService.findMatchingIgnoredFinding`: exact tier (guarded by the
truthiness of `finding.persistentId`, so an absent or empty id skips it),
then the fuzzy tier. -/
def findMatchingIgnoredFinding (workspaceRoot : Option String) (f : FindingResult)
    (ignoredFindings : List IgnoredFinding) : Option String :=
  let exactMatch : Option IgnoredFinding :=
    match f.persistentId with
    | some pid =>
        if pid = "" then none
        else ignoredFindings.find? (fun ig => ig.persistentId == pid)
    | none => none
  match exactMatch with
  | some ig => some ig.id
  | none => fuzzyMatch workspaceRoot f ignoredFindings

/-! ## DecoratorService: suppression filtering and the ignore action -/

/-- The filtering loop of `DecoratorService.updateFindings` (equally of
`getFilteredFindings`): skip findings whose session id is already in the
ignored set, enhance, drop findings the matcher recognizes (adding their
id to the ignored set), keep the rest.  `contents` supplies file contents
for context extraction. -/
def visibleFindings (workspaceRoot : Option String) (contents : String → Option String)
    (records : List IgnoredFinding) : List String → List FindingResult → List FindingResult
  | _, [] => []
  | ignoredIds, f :: rest =>
      if f.id ∈ ignoredIds then visibleFindings workspaceRoot contents records ignoredIds rest
      else
        match findMatchingIgnoredFinding workspaceRoot
            (enhanceFinding workspaceRoot (contents f.filePath) f) records with
        | some _ =>
            visibleFindings workspaceRoot contents records
              ((enhanceFinding workspaceRoot (contents f.filePath) f).id :: ignoredIds) rest
        | none =>
            enhanceFinding workspaceRoot (contents f.filePath) f
              :: visibleFindings workspaceRoot contents records ignoredIds rest

/-- The mutable state of `DecoratorService` that the ignore action
touches: the visible findings grouped by file, the session-id ignore set,
and the per-workspace list of persisted suppression records. -/
structure DecoratorState where
  findingsByFilePath : List (String × List FindingResult)
  ignoredIds : List String
  workspaceIgnored : List IgnoredFinding
deriving DecidableEq, Repr

/-- `finding.persistentId || IdService.generatePersistentId(finding)`:
JavaScript `||` falls through on an absent or empty id. -/
def recordPersistentId (workspaceRoot : Option String) (f : FindingResult) : String :=
  match f.persistentId with
  | some pid => if pid = "" then generatePersistentId workspaceRoot f else pid
  | none => generatePersistentId workspaceRoot f

/-- The `IgnoredFinding` built by `addToWorkspaceIgnored`. -/
def mkIgnoredRecord (workspaceRoot : Option String) (f : FindingResult) (now : Int) :
    IgnoredFinding :=
  ⟨recordPersistentId workspaceRoot f, f.id, f.patternName, f.filePath,
   f.lineNumber, f.matchedContent, now⟩

/-- The lookup loop of `ignoreFinding`: first finding with the given id,
scanning the file groups in order. -/
def findFindingById (entries : List (String × List FindingResult)) (findingId : String) :
    Option (String × FindingResult) :=
  match entries with
  | [] => none
  | e :: rest =>
      match e.2.find? (fun f => f.id == findingId) with
      | some f => some (e.1, f)
      | none => findFindingById rest findingId

/-- `updateDecorationsAfterIgnore`: drop ignored findings from every file
group, and drop file groups that become empty. -/
def pruneIgnoredEntries (ignoredIds : List String)
    (entries : List (String × List FindingResult)) : List (String × List FindingResult) :=
  entries.filterMap (fun e =>
    if e.2.filter (fun f => f.id ∉ ignoredIds) = [] then none
    else some (e.1, e.2.filter (fun f => f.id ∉ ignoredIds)))

/-- `DecoratorService.ignoreFinding`: look the finding up by session id
(a miss is a no-op); append a suppression record (`addToWorkspaceIgnored`
performs no fingerprint deduplication), add the id to the ignored set,
and prune the visible findings. -/
def ignoreFinding (workspaceRoot : Option String) (s : DecoratorState) (findingId : String)
    (now : Int) : DecoratorState :=
  match findFindingById s.findingsByFilePath findingId with
  | none => s
  | some (_, f) =>
      let record := mkIgnoredRecord workspaceRoot f now
      let ignoredIds := f.id :: s.ignoredIds
      { findingsByFilePath := pruneIgnoredEntries ignoredIds s.findingsByFilePath,
        ignoredIds := ignoredIds,
        workspaceIgnored := s.workspaceIgnored ++ [record] }

/-! ## PatternManager: file-type applicability -/

/-- `COMMON_FILE_TYPES.cpp` of `pattern-manager.ts`. -/
def COMMON_FILE_TYPES_cpp : List String :=
  ["c", "cpp", "h", "hpp", "cc", "cxx", "c++", "hxx", "h++",
   "ixx", "cppm", "cu", "inl", "tpp", "txx", "mxx"]

/-- `PatternManager.isPatternSupportedForFileType`: an explicitly present,
non-empty `supportedFileTypes` list is respected completely (wildcard or
membership); only when it is absent or empty does the weggli C/C++
restriction apply, and every other tool defaults to applicable. -/
def isPatternSupportedForFileType (pattern : PatternConfig) (fileExtension : String) : Bool :=
  match pattern.supportedFileTypes with
  | some types =>
      if types ≠ [] then
        if "*" ∈ types then true else decide (fileExtension ∈ types)
      else if pattern.tool = Tool.weggli then decide (fileExtension ∈ COMMON_FILE_TYPES_cpp)
      else true
  | none =>
      if pattern.tool = Tool.weggli then decide (fileExtension ∈ COMMON_FILE_TYPES_cpp)
      else true

/-! ## GrepService: execution outcomes, error handling, parsing -/

/-- Outcome of one `execa` subprocess invocation: resolved stdout, or a
rejection carrying `exitCode`, `stderr` and the system error `code`
(`"ENOENT"` when the executable was not found). -/
inductive ExecResult where
  | success (stdout : String)
  | failure (exitCode : Option Int) (stderr : String) (code : Option String)
deriving DecidableEq, Repr

/-- The error classes `executePattern` can escalate to `runAnalysis`: the
descriptive tool-not-found `Error`, or the rethrown original error. -/
inductive ExecError where
  | toolNotFound (message : String)
  | other (exitCode : Option Int) (stderr : String) (code : Option String)
deriving DecidableEq, Repr

/-- Numeric value of a digit list. -/
def digitsToNat (l : List Char) : Nat :=
  l.foldl (fun acc c => acc * 10 + (c.toNat - 48)) 0

/-- JavaScript `parseInt(s, 10)` followed by the source's `isNaN` check:
skip leading whitespace, optional sign, then a maximal digit run; no
digits means `NaN` (`none`). -/
def jsParseInt10 (l : List Char) : Option Int :=
  let l1 := l.dropWhile (fun c => c.isWhitespace)
  let sign : Int := if l1.headD ' ' = '-' then -1 else 1
  let l2 := if l1.headD ' ' = '-' ∨ l1.headD ' ' = '+' then l1.tail else l1
  let digits := l2.takeWhile (fun c => c.isDigit)
  if digits = [] then none
  else some (sign * (digitsToNat digits : Int))

/-- `GrepService.getCodeIndicator`: map the lower-cased final
`.`-separated segment of the path to a language tag. -/
def extOf (filePath : String) : String :=
  match (jsSplit '.' filePath).getLast? with
  | some e => e.toLower
  | none => ""

/-- Language indicator by file extension (`getCodeIndicator`). -/
def getCodeIndicator (filePath : String) : String :=
  let fileExtension := extOf filePath
  if fileExtension ∈ ["js", "ts", "jsx", "tsx"] then "js"
  else if fileExtension ∈ ["py"] then "python"
  else if fileExtension ∈ ["c", "cpp", "h", "hpp"] then "c"
  else if fileExtension ∈ ["java"] then "java"
  else if fileExtension ∈ ["go"] then "go"
  else if fileExtension ∈ ["php"] then "php"
  else if fileExtension ∈ ["rb"] then "ruby"
  else if fileExtension ∈ ["html", "htm"] then "html"
  else if fileExtension ∈ ["css", "scss", "sass", "less"] then "css"
  else if fileExtension ∈ ["json"] then "json"
  else if fileExtension ∈ ["xml"] then "xml"
  else if fileExtension ∈ ["md", "markdown"] then "markdown"
  else if fileExtension ∈ ["sh", "bash"] then "bash"
  else if fileExtension = "" then "text"
  else fileExtension

/-- Parse one line of ripgrep `path:lineNumber:content` output
(`parseRipgrepOutput` loop body).  Lines without two colons, or whose
line-number field is not a number, are skipped.  The matched content is
the text after the second colon, trimmed.  `newId` stands in for the
session `uuidv4()`. -/
def parseRgLine (pattern : PatternConfig) (timestamp : Int) (newId : String)
    (line : String) : Option FindingResult :=
  let l := line.data
  match l.findIdx? (fun c => c = ':') with
  | none => none
  | some firstColonIndex =>
      let afterFirst := l.drop (firstColonIndex + 1)
      match afterFirst.findIdx? (fun c => c = ':') with
      | none => none
      | some relIdx =>
          let filePath : String := ⟨l.take firstColonIndex⟩
          let lineNumberStr := afterFirst.take relIdx
          let matchedContent := jsTrim (String.mk (afterFirst.drop (relIdx + 1)))
          match jsParseInt10 lineNumberStr with
          | none => none
          | some lineNumber =>
              some { id := newId, patternName := pattern.name,
                     patternDescription := pattern.description,
                     tool := pattern.tool, severity := pattern.severity,
                     filePath := filePath, lineNumber := lineNumber,
                     matchedContent := matchedContent,
                     codeIndicator := some (getCodeIndicator filePath),
                     timestamp := timestamp }

/-- `GrepService.parseRipgrepOutput`: empty (after trimming) output parses
to no results; otherwise split the trimmed output on newlines and parse
each line.  `idGen` supplies the per-result session uuids. -/
def parseRipgrepOutput (idGen : Nat → String) (output : String) (pattern : PatternConfig)
    (timestamp : Int) : List FindingResult :=
  if jsTrim output = "" then []
  else
    (jsSplit '\n' (jsTrim output)).enum.filterMap
      (fun p => parseRgLine pattern timestamp (idGen p.1) p.2)

/-- The per-file weggli loop of `executePattern`: a resolved invocation
with non-blank stdout contributes parsed results; a rejection with exit
code 1 and empty stderr is the "no matches" case and is skipped silently;
any other rejection is logged and skipped.  Returns the results and the
log messages.  The weggli output parser itself is abstracted as
`parseOut` (no claim depends on it). -/
def weggliFileLoop (parseOut : String → List FindingResult)
    (fileOutcome : String → ExecResult) : List String → List FindingResult × List String
  | [] => ([], [])
  | file :: rest =>
      let tailRes := weggliFileLoop parseOut fileOutcome rest
      match fileOutcome file with
      | .success stdout =>
          ((if jsTrim stdout ≠ "" then parseOut stdout else []) ++ tailRes.1, tailRes.2)
      | .failure exitCode stderr _ =>
          if exitCode = some 1 ∧ stderr = "" then tailRes
          else (tailRes.1, ("Error running weggli on " ++ file) :: tailRes.2)

/-- The ripgrep branch of `executePattern` together with its catch block
(lines 621-648 of the source): exit code 1 with empty stderr returns an
empty result list; an `ENOENT` rejection is converted into the
descriptive tool-not-found error; anything else is rethrown. -/
def executePatternRg (idGen : Nat → String) (pattern : PatternConfig) (timestamp : Int)
    (outcome : ExecResult) : Except ExecError (List FindingResult) :=
  match outcome with
  | .success stdout => .ok (parseRipgrepOutput idGen stdout pattern timestamp)
  | .failure exitCode stderr code =>
      if exitCode = some 1 ∧ stderr = "" then .ok []
      else if code = some "ENOENT" then
        .error (.toolNotFound
          "Ripgrep executable not found. Please check your ripgrep installation or configure greppy.ripgrepPath.")
      else .error (.other exitCode stderr code)

/-- The per-pattern loop of `GrepService.runAnalysis` (lines 427-487):
each pattern is executed inside a `try`; a successful execution has its
results enhanced and appended; a thrown error — the tool-not-found error
included — is caught, surfaced as a per-pattern error message, and the
loop continues with the remaining patterns.  `execute` is the per-pattern
execution (e.g. `executePatternRg` applied to that pattern's subprocess
outcome); the second component collects the reported errors. -/
def runAnalysisLoop (workspaceRoot : Option String) (contents : String → Option String)
    (execute : PatternConfig → Except ExecError (List FindingResult)) :
    List PatternConfig → List FindingResult × List (String × ExecError)
  | [] => ([], [])
  | p :: rest =>
      let tailRes := runAnalysisLoop workspaceRoot contents execute rest
      match execute p with
      | .ok results =>
          ((results.map (fun r => enhanceFinding workspaceRoot (contents r.filePath) r))
            ++ tailRes.1, tailRes.2)
      | .error e => (tailRes.1, (p.name, e) :: tailRes.2)

/-! ## Concrete sample data used by witnesses and counterexamples -/

/-- A sample enhanced finding carrying fingerprint `"P"`. -/
def fA : FindingResult :=
  { id := "1", persistentId := some "P", patternName := "p", patternDescription := "d",
    tool := .ripgrep, severity := .critical, filePath := "/w/a.ts", lineNumber := 10,
    matchedContent := "password = \"abc12345\"", timestamp := 0 }

/-- A second finding with the same content (hence the same fingerprint)
at a nearby line, with a distinct session id. -/
def fB : FindingResult := { fA with id := "2", lineNumber := 12 }

/-- A suppression record whose fingerprint matches `fA`. -/
def igA : IgnoredFinding :=
  ⟨"P", "rid", "p", "/w/a.ts", 10, "password = \"abc12345\"", 0⟩

/-- A decorator state showing `fA` and `fB` in one file group. -/
def sAB : DecoratorState := ⟨[("/w/a.ts", [fA, fB])], [], []⟩

/-- A first sample ripgrep pattern. -/
def pRip1 : PatternConfig :=
  { name := "p1", description := "d1", tool := .ripgrep, pattern := "x", severity := .info }

/-- A second sample ripgrep pattern. -/
def pRip2 : PatternConfig :=
  { name := "p2", description := "d2", tool := .ripgrep, pattern := "y", severity := .info }

/-- A weggli pattern whose `supportedFileTypes` names a non-C/C++
extension. -/
def pWeggliPy : PatternConfig :=
  { name := "w", description := "dw", tool := .weggli, pattern := "z", severity := .info,
    supportedFileTypes := some ["py"] }

/-- Subprocess outcomes for a two-pattern run whose first pattern hits a
missing scanner executable and whose second pattern finds one match. -/
def outcomesMissingTool : PatternConfig → ExecResult := fun p =>
  if p.name = "p1" then .failure none "" (some "ENOENT") else .success "a.ts:1:x"

/-- A fixed session-id generator for sample runs. -/
def idGen0 : Nat → String := fun _ => "u"

/-- A file-content oracle under which every read fails. -/
def noContents : String → Option String := fun _ => none

/-! ## Helper lemmas -/

/-- Hex rendering doubles the length. -/
theorem bytesToHexChars_length (l : List Nat) : (bytesToHexChars l).length = 2 * l.length := by
  induction l with
  | nil => rfl
  | cons b bs ih => simp [bytesToHexChars, ih]; ring

/-- A SHA-256 digest has 32 bytes. -/
theorem digestBytes_length (s : Hash8) : (digestBytes s).length = 32 := rfl

/-- A SHA-256 hex digest has 64 characters. -/
theorem sha256HexChars_length (s : String) : (sha256HexChars s).length = 64 := by
  simp [sha256HexChars, bytesToHexChars_length, digestBytes_length]

/-- The truncated fingerprint has exactly 24 characters. -/
theorem generatePersistentId_length (root : Option String) (f : FindingResult) :
    (generatePersistentId root f).length = 24 := by
  have h := sha256HexChars_length
    (f.patternName ++ ":" ++ getRelativeFilePath root f.filePath ++ ":" ++ f.matchedContent)
  simp [generatePersistentId, jsSubstring0, String.length, sha256HexStr,
    List.length_take, h]

/-- The truncated fingerprint is never the empty string. -/
theorem generatePersistentId_ne_empty (root : Option String) (f : FindingResult) :
    generatePersistentId root f ≠ "" := by
  intro h
  have h24 := generatePersistentId_length root f
  rw [h] at h24
  simp [String.length] at h24

/-- A decimal digit is not a whitespace character. -/
theorem isDigit_not_ws (c : Char) (h : c.isDigit = true) : c.isWhitespace = false := by
  cases hw : c.isWhitespace with
  | false => rfl
  | true =>
      exfalso
      have hw' : ((c = ' ' ∨ c = '\t') ∨ c = '\r') ∨ c = '\n' := by
        simpa [Char.isWhitespace, Bool.or_eq_true, decide_eq_true_iff] using hw
      rcases hw' with ((h1 | h1) | h1) | h1 <;> subst h1 <;> exact absurd h (by decide)

/-- A decimal digit is not a colon. -/
theorem isDigit_ne_colon (c : Char) (h : c.isDigit = true) : c ≠ ':' := by
  intro h1; subst h1; exact absurd h (by decide)

/-- A decimal digit is not a minus sign. -/
theorem isDigit_ne_minus (c : Char) (h : c.isDigit = true) : c ≠ '-' := by
  intro h1; subst h1; exact absurd h (by decide)

/-- A decimal digit is not a plus sign. -/
theorem isDigit_ne_plus (c : Char) (h : c.isDigit = true) : c ≠ '+' := by
  intro h1; subst h1; exact absurd h (by decide)

/-- The head of a filtered list is its first satisfying element. -/
theorem head?_filter_eq_find? {α : Type} (p : α → Bool) (l : List α) :
    (l.filter p).head? = l.find? p := by
  induction l with
  | nil => rfl
  | cons x xs ih =>
      by_cases h : p x = true <;> simp [List.filter_cons, List.find?_cons, h, ih]

/-- `findIdx?` over a list whose prefix fails the predicate and whose
next element satisfies it. -/
theorem findIdx?_append_cons {α : Type} (p : α → Bool) (x : α) (l₂ : List α)
    (hx : p x = true) :
    ∀ (l₁ : List α) (i : Nat), (∀ y ∈ l₁, p y = false) →
      List.findIdx? p (l₁ ++ x :: l₂) i = some (i + l₁.length) := by
  intro l₁
  induction l₁ with
  | nil => intro i _; simp [List.findIdx?_cons, hx]
  | cons y ys ih =>
      intro i hall
      have hy : p y = false := hall y (by simp)
      have hys : ∀ z ∈ ys, p z = false := fun z hz => hall z (by simp [hz])
      rw [List.cons_append, List.findIdx?_cons, hy]
      simp only [Bool.false_eq_true, if_false]
      rw [ih (i + 1) hys]
      congr 1
      simp
      omega

/-- `takeWhile` stops exactly at the first failing element. -/
theorem takeWhile_append_cons {α : Type} (p : α → Bool) (x : α) (l₂ : List α)
    (hx : p x = false) :
    ∀ (l₁ : List α), (∀ y ∈ l₁, p y = true) →
      List.takeWhile p (l₁ ++ x :: l₂) = l₁ := by
  intro l₁
  induction l₁ with
  | nil => simp [List.takeWhile_cons, hx]
  | cons y ys ih =>
      intro hall
      have hy : p y = true := hall y (by simp)
      have hys : ∀ z ∈ ys, p z = true := fun z hz => hall z (by simp [hz])
      rw [List.cons_append, List.takeWhile_cons, hy]
      simp [ih hys]

/-- `takeWhile` keeps a list all of whose elements satisfy the predicate. -/
theorem takeWhile_eq_self_of_all {α : Type} (p : α → Bool) :
    ∀ (l : List α), (∀ y ∈ l, p y = true) → List.takeWhile p l = l := by
  intro l
  induction l with
  | nil => simp
  | cons y ys ih =>
      intro hall
      have hy : p y = true := hall y (by simp)
      have hys : ∀ z ∈ ys, p z = true := fun z hz => hall z (by simp [hz])
      rw [List.takeWhile_cons, hy]
      simp [ih hys]

/-! ## The row-based DP loop computes the Levenshtein recurrence -/

/-- The base-row equation of the recurrence. -/
theorem levDP_zero (s1 s2 : List Char) (j : Nat) : levDP s1 s2 0 j = j := by
  cases j <;> simp [levDP]

/-- The base-column equation of the recurrence. -/
theorem levDP_succ_zero (s1 s2 : List Char) (i : Nat) : levDP s1 s2 (i + 1) 0 = i + 1 := by
  simp [levDP]

/-- The interior equation of the recurrence. -/
theorem levDP_succ_succ (s1 s2 : List Char) (i j : Nat) :
    levDP s1 s2 (i + 1) (j + 1)
      = min (levDP s1 s2 i (j + 1) + 1)
          (min (levDP s1 s2 (i + 1) j + 1)
            (levDP s1 s2 i j + if s1.getD i ' ' = s2.getD j ' ' then 0 else 1)) := by
  simp [levDP]

/-- Invariant of the inner row loop: fed the remaining characters of
`str2` from column `j`, the previous row's entries from column `j`, and
the current row's entry at column `j`, it produces the current row's
entries from column `j + 1` on. -/
theorem levRowLoop_go (s1 s2 : List Char) (i : Nat) :
    ∀ (cs : List Char) (j : Nat), s2.drop j = cs → j ≤ s2.length →
      levRowLoop (s1.getD i ' ') cs
        ((List.range' j (s2.length + 1 - j)).map (levDP s1 s2 i))
        (levDP s1 s2 (i + 1) j)
      = (List.range' (j + 1) (s2.length - j)).map (levDP s1 s2 (i + 1)) := by
  intro cs
  induction cs generalizing i with
  | nil =>
      intro j hdrop hj
      have hlen : s2.length ≤ j := List.drop_eq_nil_iff.mp hdrop
      have h1 : s2.length + 1 - j = 1 := by omega
      have h2 : s2.length - j = 0 := by omega
      rw [h1, h2]
      simp [levRowLoop]
  | cons c2 cs' ih =>
      intro j hdrop hj
      have hjlt : j < s2.length := by
        by_contra hge
        push_neg at hge
        have : s2.drop j = [] := List.drop_eq_nil_iff.mpr (by omega)
        rw [this] at hdrop
        exact List.noConfusion hdrop
      have hget : s2[j]? = some c2 := by
        rw [← List.head?_drop, hdrop]
        rfl
      have hc2 : s2.getD j ' ' = c2 := by
        rw [List.getD_eq_getD_get?, List.get?_eq_getElem?, hget]
        rfl
      have hdrop' : s2.drop (j + 1) = cs' := by
        have h0 : List.drop 1 (s2.drop j) = List.drop 1 (c2 :: cs') := by rw [hdrop]
        rw [List.drop_drop] at h0
        simpa using h0
      have hw : (List.range' j (s2.length + 1 - j)).map (levDP s1 s2 i)
          = levDP s1 s2 i j :: levDP s1 s2 i (j + 1)
            :: (List.range' (j + 2) (s2.length - j - 1)).map (levDP s1 s2 i) := by
        have h1 : s2.length + 1 - j = (s2.length - j - 1) + 1 + 1 := by omega
        rw [h1, List.range'_succ, List.range'_succ]
        simp [List.map_cons]
      rw [hw]
      have hrec : levRowLoop (s1.getD i ' ') cs'
          (levDP s1 s2 i (j + 1)
            :: (List.range' (j + 2) (s2.length - j - 1)).map (levDP s1 s2 i))
          (levDP s1 s2 (i + 1) (j + 1))
          = (List.range' (j + 2) (s2.length - j - 1)).map (levDP s1 s2 (i + 1)) := by
        have hw' : (List.range' (j + 1) (s2.length + 1 - (j + 1))).map (levDP s1 s2 i)
            = levDP s1 s2 i (j + 1)
              :: (List.range' (j + 2) (s2.length - j - 1)).map (levDP s1 s2 i) := by
          have h1 : s2.length + 1 - (j + 1) = (s2.length - j - 1) + 1 := by omega
          rw [h1, List.range'_succ]
          simp [List.map_cons]
        have h2 : s2.length - (j + 1) = s2.length - j - 1 := by omega
        have := ih i (j + 1) hdrop' (by omega)
        rw [hw', h2] at this
        exact this
      have hcur : min (levDP s1 s2 i (j + 1) + 1)
          (min (levDP s1 s2 (i + 1) j + 1)
            (levDP s1 s2 i j + if s1.getD i ' ' = c2 then 0 else 1))
          = levDP s1 s2 (i + 1) (j + 1) := by
        rw [← hc2, levDP_succ_succ]
      have hout : (List.range' (j + 1) (s2.length - j)).map (levDP s1 s2 (i + 1))
          = levDP s1 s2 (i + 1) (j + 1)
            :: (List.range' (j + 2) (s2.length - j - 1)).map (levDP s1 s2 (i + 1)) := by
        have h1 : s2.length - j = (s2.length - j - 1) + 1 := by omega
        rw [h1, List.range'_succ]
        simp [List.map_cons]
      rw [hout]
      simp only [levRowLoop, List.headD_cons]
      rw [hcur, hrec]

/-- Invariant of the outer loop: fed the remaining characters of `str1`
from row `i` and row `i` of the matrix, it produces the final row. -/
theorem levRows_go (s1 s2 : List Char) :
    ∀ (cs : List Char) (i : Nat), s1.drop i = cs → i ≤ s1.length →
      levRows s2 cs ((List.range' 0 (s2.length + 1)).map (levDP s1 s2 i)) i
      = (List.range' 0 (s2.length + 1)).map (levDP s1 s2 s1.length) := by
  intro cs
  induction cs with
  | nil =>
      intro i hdrop hi
      have hlen : s1.length ≤ i := List.drop_eq_nil_iff.mp hdrop
      have : i = s1.length := by omega
      subst this
      simp [levRows]
  | cons c1 cs' ih =>
      intro i hdrop hi
      have hilt : i < s1.length := by
        by_contra hge
        push_neg at hge
        have : s1.drop i = [] := List.drop_eq_nil_iff.mpr (by omega)
        rw [this] at hdrop
        exact List.noConfusion hdrop
      have hget : s1[i]? = some c1 := by
        rw [← List.head?_drop, hdrop]
        rfl
      have hc1 : s1.getD i ' ' = c1 := by
        rw [List.getD_eq_getD_get?, List.get?_eq_getElem?, hget]
        rfl
      have hdrop' : s1.drop (i + 1) = cs' := by
        have h0 : List.drop 1 (s1.drop i) = List.drop 1 (c1 :: cs') := by rw [hdrop]
        rw [List.drop_drop] at h0
        simpa using h0
      have hrow : levRow c1 s2 ((List.range' 0 (s2.length + 1)).map (levDP s1 s2 i)) (i + 1)
          = (List.range' 0 (s2.length + 1)).map (levDP s1 s2 (i + 1)) := by
        have hloop := levRowLoop_go s1 s2 i s2 0 (by simp) (by omega)
        rw [hc1] at hloop
        have h0 : s2.length + 1 - 0 = s2.length + 1 := by omega
        have h1 : s2.length - 0 = s2.length := by omega
        rw [h0, h1] at hloop
        have hout : (List.range' 0 (s2.length + 1)).map (levDP s1 s2 (i + 1))
            = levDP s1 s2 (i + 1) 0
              :: (List.range' 1 s2.length).map (levDP s1 s2 (i + 1)) := by
          rw [List.range'_succ]
          simp [List.map_cons]
        rw [levDP_succ_zero] at hloop
        rw [hout, levDP_succ_zero]
        unfold levRow
        rw [hloop]
      rw [levRows, hrow]
      exact ih (i + 1) hdrop' (by omega)

/-- The row-based matrix computation of the source equals the classic
Levenshtein recurrence at the bottom-right matrix corner. -/
theorem levenshtein_eq_levDP (s1 s2 : List Char) :
    levenshtein s1 s2 = levDP s1 s2 s1.length s2.length := by
  unfold levenshtein
  have hrow0 : List.range (s2.length + 1) = (List.range' 0 (s2.length + 1)).map (levDP s1 s2 0) := by
    rw [List.range_eq_range']
    have : ∀ a ∈ List.range' 0 (s2.length + 1), a = levDP s1 s2 0 a := by
      intro a _
      rw [levDP_zero]
    calc List.range' 0 (s2.length + 1)
        = (List.range' 0 (s2.length + 1)).map id := by simp
      _ = (List.range' 0 (s2.length + 1)).map (levDP s1 s2 0) :=
          List.map_congr_left (fun a ha => this a ha)
  rw [hrow0, levRows_go s1 s2 s1 0 (by simp) (by omega)]
  rw [List.getLastD_eq_getLast?, List.getLast?_map]
  have hlast : (List.range' 0 (s2.length + 1)).getLast? = some s2.length := by
    rw [List.range'_1_concat, List.getLast?_concat]
    simp
  rw [hlast]
  rfl

/-- On non-empty strings, the similarity score is one minus the
normalized recurrence value. -/
theorem calculateStringSimilarity_eq (str1 str2 : String)
    (h1 : str1.data ≠ []) (h2 : str2.data ≠ []) :
    calculateStringSimilarity str1 str2
      = 1 - (levDP str1.data str2.data str1.data.length str2.data.length : ℚ)
          / ((max str1.data.length str2.data.length : ℕ) : ℚ) := by
  have e : ¬(str1.data.length = 0 ∨ str2.data.length = 0) := by
    push_neg
    exact ⟨fun h => h1 (List.length_eq_zero.mp h), fun h => h2 (List.length_eq_zero.mp h)⟩
  simp only [calculateStringSimilarity]
  rw [if_neg e, levenshtein_eq_levDP]

/-- An empty input makes the similarity score zero. -/
theorem calculateStringSimilarity_empty (str1 str2 : String)
    (h : str1 = "" ∨ str2 = "") : calculateStringSimilarity str1 str2 = 0 := by
  rcases h with h | h <;> subst h
  · simp only [calculateStringSimilarity]
    rw [if_pos (Or.inl (by decide))]
  · simp only [calculateStringSimilarity]
    rw [if_pos (Or.inr (by decide))]

/-- C1, counterexample.  The claim asserts that a pair whose similarity
is exactly 0.70 satisfies the fuzzy text acceptance; the code compares
with a strict `> 0.7`.  At distance 3 over length 10 the similarity is
exactly `7/10`: the spec-worded inclusive predicate accepts the pair
while the code's predicate rejects it. -/
theorem c1_counterexample :
    specTextSimilarAccept "aaaaaaaaaa" "aaaaaaabbb" = true
    ∧ textSimilarOK "aaaaaaaaaa" "aaaaaaabbb" = false
    ∧ calculateStringSimilarity "aaaaaaaaaa" "aaaaaaabbb" = 7 / 10 := by
  have hsim : calculateStringSimilarity "aaaaaaaaaa" "aaaaaaabbb" = 7 / 10 := by
    have hl : levenshtein "aaaaaaaaaa".data "aaaaaaabbb".data = 3 := by decide
    simp only [calculateStringSimilarity]
    rw [if_neg (by decide), hl]
    norm_num
  refine ⟨?_, ?_, hsim⟩
  · simp [specTextSimilarAccept, hsim]
  · simp [textSimilarOK, hsim]

/-- C1, amended.  Fuzzy-tier text acceptance holds iff both strings are
non-empty and the normalized similarity
`1 - levenshtein(a,b) / max(len a, len b)` — with `levenshtein` the
classic DP edit-distance recurrence — is strictly greater than 0.70
(not at-least 0.70 as claimed); and any empty-string input yields
similarity 0. -/
theorem c1_amended (str1 str2 : String) :
    (textSimilarOK str1 str2 = true ↔
      (str1.data ≠ [] ∧ str2.data ≠ [] ∧
        (7 : ℚ) / 10 < 1 - (levDP str1.data str2.data str1.data.length str2.data.length : ℚ)
          / ((max str1.data.length str2.data.length : ℕ) : ℚ)))
    ∧ ((str1 = "" ∨ str2 = "") → calculateStringSimilarity str1 str2 = 0) := by
  constructor
  · unfold textSimilarOK
    rw [decide_eq_true_iff]
    constructor
    · intro h
      by_cases h1 : str1.data = []
      · exfalso
        have hs1 : str1 = "" := by
          cases str1
          simp at h1
          simp [h1]
        rw [calculateStringSimilarity_empty str1 str2 (Or.inl hs1)] at h
        norm_num at h
      · by_cases h2 : str2.data = []
        · exfalso
          have hs2 : str2 = "" := by
            cases str2
            simp at h2
            simp [h2]
          rw [calculateStringSimilarity_empty str1 str2 (Or.inr hs2)] at h
          norm_num at h
        · exact ⟨h1, h2, by rw [← calculateStringSimilarity_eq _ _ h1 h2]; exact h⟩
    · rintro ⟨h1, h2, h⟩
      rw [calculateStringSimilarity_eq _ _ h1 h2]
      exact h
  · exact calculateStringSimilarity_empty str1 str2

/-- C1, witness: the amended theorem applied at concrete inputs — an
empty first string scores 0, and identical non-empty strings are
accepted. -/
theorem c1_amended_witness :
    calculateStringSimilarity "" "x" = 0 ∧ textSimilarOK "ab" "ab" = true := by
  constructor
  · exact (c1_amended "" "x").2 (Or.inl rfl)
  · refine (c1_amended "ab" "ab").1.mpr ⟨by decide, by decide, ?_⟩
    have hl : levDP "ab".data "ab".data "ab".data.length "ab".data.length = 0 := by
      rw [← levenshtein_eq_levDP]
      decide
    rw [hl]
    norm_num

/-! ## Basename and path-suffix lemmas -/

/-- No character of a basename is a path separator. -/
theorem basenameChars_no_slash (l : List Char) : ∀ c ∈ basenameChars l, c ≠ '/' := by
  intro c hc
  have hmem : c ∈ l.reverse.takeWhile (fun x => decide (x ≠ '/')) := by
    simpa [basenameChars] using hc
  have := List.mem_takeWhile_imp hmem
  simpa using this

/-- A path that ends with `"/" ++ basename b` has the same basename as
`b` (used to relate the source's `endsWith` guard to the spec's
"trailing path segment equal"). -/
theorem endsWith_basename (a b : String)
    (h : jsEndsWith a ("/" ++ basename b) = true) : basename a = basename b := by
  unfold jsEndsWith at h
  rw [List.isSuffixOf_iff_suffix] at h
  have hdata : ("/" ++ basename b).data = '/' :: basenameChars b.data := by
    rw [String.data_append]
    rfl
  rw [hdata] at h
  obtain ⟨u, hu⟩ := h
  have hrev : a.data.reverse = (basenameChars b.data).reverse ++ '/' :: u.reverse := by
    rw [← hu]
    simp
  have hall : ∀ y ∈ (basenameChars b.data).reverse,
      (fun x => decide (x ≠ '/')) y = true := by
    intro y hy
    rw [List.mem_reverse] at hy
    simpa using basenameChars_no_slash b.data y hy
  have hkey : basenameChars a.data = basenameChars b.data := by
    show (a.data.reverse.takeWhile (fun x => decide (x ≠ '/'))).reverse = basenameChars b.data
    rw [hrev, takeWhile_append_cons _ '/' u.reverse (by simp) _ hall,
      List.reverse_reverse]
  show (⟨basenameChars a.data⟩ : String) = ⟨basenameChars b.data⟩
  rw [hkey]

/-- C3.  A record passes the fuzzy candidate filter only if its rule name
matches exactly, its relative path equals the finding's relative path or
has an equal trailing segment (basename), and the line delta is at most
15; a delta of 16 is rejected; and the fuzzy tier returns the first
candidate in record-list order (no similarity ranking). -/
theorem c3_theorem (root : Option String) (rel : String) (f : FindingResult)
    (ig : IgnoredFinding) (ignored : List IgnoredFinding) :
    (fuzzyCandidate root rel f ig = true →
      ig.patternName = f.patternName
      ∧ (getRelativeFilePath root ig.filePath = rel
         ∨ basename (getRelativeFilePath root ig.filePath) = basename rel)
      ∧ (ig.lineNumber - f.lineNumber).natAbs ≤ 15)
    ∧ ((ig.lineNumber - f.lineNumber).natAbs = 16 → fuzzyCandidate root rel f ig = false)
    ∧ fuzzyMatch root f ignored
        = (ignored.find? (fuzzyCandidate root (getRelativeFilePath root f.filePath) f)).map
            (fun r => r.id) := by
  refine ⟨?_, ?_, ?_⟩
  · intro h
    unfold fuzzyCandidate at h
    split_ifs at h with h1 h2 h3 <;> try exact absurd h Bool.false_ne_true
    refine ⟨not_not.mp h1, ?_, by omega⟩
    by_cases hp : getRelativeFilePath root ig.filePath = rel
    · exact Or.inl hp
    · right
      rcases not_and_or.mp h2 with hc | hc
      · rw [not_not] at hc
        exact absurd hc hp
      · exact endsWith_basename _ _ (by simpa using hc)
  · intro h16
    unfold fuzzyCandidate
    split_ifs with h1 h2 h3 <;> first | rfl | omega
  · simp only [fuzzyMatch]
    rw [← head?_filter_eq_find?]
    cases hf : ignored.filter (fuzzyCandidate root (getRelativeFilePath root f.filePath) f) <;>
      simp [hf]

set_option maxRecDepth 8192 in
/-- C3, witness: a record one line away with identical text is a
candidate (so its three necessary conditions hold), and the same record
moved 16 lines away is rejected. -/
theorem c3_witness :
    (igA.lineNumber - fA.lineNumber).natAbs ≤ 15
    ∧ fuzzyCandidate none "/w/a.ts" fA { igA with lineNumber := 26 } = false := by
  constructor
  · have hs : textSimilarOK igA.matchedContent fA.matchedContent = true := by
      show textSimilarOK "password = \"abc12345\"" "password = \"abc12345\"" = true
      have hl : levenshtein "password = \"abc12345\"".data "password = \"abc12345\"".data = 0 := by
        decide
      simp only [textSimilarOK, calculateStringSimilarity]
      rw [if_neg (by decide), hl]
      norm_num
    have hcand : fuzzyCandidate none "/w/a.ts" fA igA = true := by
      unfold fuzzyCandidate
      rw [if_neg (by decide), if_neg (by decide), if_neg (by decide)]
      exact hs
    exact ((c3_theorem none "/w/a.ts" fA igA []).1 hcand).2.2
  · exact (c3_theorem none "/w/a.ts" fA { igA with lineNumber := 26 } []).2.1 (by decide)

/-! ## C2: exact-tier suppression and idempotence -/

/-- Every finding that survives the `updateFindings` suppression filter
is unmatched by the given record list. -/
theorem visibleFindings_not_suppressed (root : Option String)
    (contents : String → Option String) (records : List IgnoredFinding) :
    ∀ (fs : List FindingResult) (ids : List String) (g : FindingResult),
      g ∈ visibleFindings root contents records ids fs →
      findMatchingIgnoredFinding root g records = none := by
  intro fs
  induction fs with
  | nil => intro ids g hg; simp [visibleFindings] at hg
  | cons f rest ih =>
      intro ids g hg
      simp only [visibleFindings] at hg
      by_cases hid : f.id ∈ ids
      · rw [if_pos hid] at hg
        exact ih ids g hg
      · rw [if_neg hid] at hg
        cases hm : findMatchingIgnoredFinding root
            (enhanceFinding root (contents f.filePath) f) records with
        | some x =>
            simp only [hm] at hg
            exact ih _ g hg
        | none =>
            simp only [hm] at hg
            rcases List.mem_cons.mp hg with hgf | hgr
            · rw [hgf]
              exact hm
            · exact ih ids g hgr

/-- C2.  For a finding carrying a (non-empty) fingerprint: if some record
has an equal fingerprint, the matcher returns the first such record's id
(exact tier); the fuzzy tier is consulted exactly when no record has an
equal fingerprint; and every finding that `updateFindings` leaves visible
is unmatched by the record list — so a finding whose fingerprint equals a
record's is never visible after a re-scan. -/
theorem c2_theorem (root : Option String) (f : FindingResult)
    (ignored : List IgnoredFinding) (pid : String) :
    ((f.persistentId = some pid ∧ pid ≠ "" ∧ ∃ ig ∈ ignored, ig.persistentId = pid) →
      ∃ ig, ignored.find? (fun x => x.persistentId == pid) = some ig
        ∧ ig.persistentId = pid
        ∧ findMatchingIgnoredFinding root f ignored = some ig.id)
    ∧ ((f.persistentId = some pid ∧ (∀ ig ∈ ignored, ig.persistentId ≠ pid)) →
      findMatchingIgnoredFinding root f ignored = fuzzyMatch root f ignored)
    ∧ (∀ (contents : String → Option String) (ids : List String)
        (fs : List FindingResult) (g : FindingResult),
        g ∈ visibleFindings root contents ignored ids fs →
        findMatchingIgnoredFinding root g ignored = none) := by
  refine ⟨?_, ?_, fun contents ids fs g hg =>
    visibleFindings_not_suppressed root contents ignored fs ids g hg⟩
  · rintro ⟨hpid, hne, ig, hmem, hig⟩
    have hsome : (ignored.find? (fun x => x.persistentId == pid)).isSome := by
      by_contra hnone
      rw [Option.not_isSome_iff_eq_none, List.find?_eq_none] at hnone
      exact hnone ig hmem (by simpa [beq_iff_eq] using hig)
    obtain ⟨found, hfound⟩ := Option.isSome_iff_exists.mp hsome
    refine ⟨found, hfound, by simpa [beq_iff_eq] using List.find?_some hfound, ?_⟩
    simp only [findMatchingIgnoredFinding, hpid]
    rw [if_neg hne, hfound]
  · rintro ⟨hpid, hall⟩
    by_cases hne : pid = ""
    · simp only [findMatchingIgnoredFinding, hpid]
      rw [if_pos hne]
    · have hnone : ignored.find? (fun x => x.persistentId == pid) = none := by
        rw [List.find?_eq_none]
        intro x hx
        simpa [beq_iff_eq] using hall x hx
      simp only [findMatchingIgnoredFinding, hpid]
      rw [if_neg hne, hnone]

/-- C2, witness: with one record whose fingerprint equals the finding's,
the matcher returns that record's id; and with a record list whose only
fingerprint differs, the matcher falls through to the fuzzy tier. -/
theorem c2_witness :
    findMatchingIgnoredFinding none fA [igA] = some "rid"
    ∧ findMatchingIgnoredFinding none fA [{ igA with persistentId := "Q" }]
        = fuzzyMatch none fA [{ igA with persistentId := "Q" }] := by
  constructor
  · obtain ⟨ig, hfind, hpid, hres⟩ :=
      (c2_theorem none fA [igA] "P").1 ⟨rfl, by decide, igA, by simp, rfl⟩
    have : ig = igA := by
      rw [List.find?_cons] at hfind
      simp only [show (igA.persistentId == "P") = true by decide] at hfind
      exact (Option.some.injEq _ _).mp hfind.symm
    rw [hres, this]
    rfl
  · exact (c2_theorem none fA [{ igA with persistentId := "Q" }] "P").2.1
      ⟨rfl, by intro ig hig; simp at hig; rw [hig]; decide⟩

/-! ## C4: fingerprint structure and determinism -/

/-- C4.  The fingerprint is the SHA-256 hex digest of
`patternName:relativePath:matchedContent` truncated to 24 characters; it
always has exactly 24 characters; and it is a deterministic function of
those three inputs alone (in particular the line number plays no part). -/
theorem c4_theorem (root : Option String) (f g : FindingResult) :
    (generatePersistentId root f).length = 24
    ∧ generatePersistentId root f
        = jsSubstring0 (sha256HexStr (f.patternName ++ ":"
            ++ getRelativeFilePath root f.filePath ++ ":" ++ f.matchedContent)) 24
    ∧ (f.patternName = g.patternName →
        getRelativeFilePath root f.filePath = getRelativeFilePath root g.filePath →
        f.matchedContent = g.matchedContent →
        generatePersistentId root f = generatePersistentId root g) := by
  refine ⟨generatePersistentId_length root f, rfl, ?_⟩
  intro h1 h2 h3
  unfold generatePersistentId
  rw [h1, h2, h3]

/-- C4, witness: two findings equal in the three fingerprint inputs but
differing in line number receive the same 24-character fingerprint. -/
theorem c4_witness :
    generatePersistentId none fA = generatePersistentId none { fA with lineNumber := 99 }
    ∧ (generatePersistentId none fA).length = 24 :=
  ⟨(c4_theorem none fA { fA with lineNumber := 99 }).2.2 rfl rfl rfl,
   (c4_theorem none fA fA).1⟩

/-! ## C5: the suppression set is not deduplicated by fingerprint -/

/-- A successful lookup in the visible findings returns a finding with
the looked-up session id. -/
theorem findFindingById_id_eq :
    ∀ (entries : List (String × List FindingResult)) (fid : String)
      (pf : String × FindingResult),
      findFindingById entries fid = some pf → pf.2.id = fid := by
  intro entries
  induction entries with
  | nil => intro fid pf h; simp [findFindingById] at h
  | cons e rest ih =>
      intro fid pf h
      simp only [findFindingById] at h
      cases hf : e.2.find? (fun x => x.id == fid) with
      | some x =>
          simp only [hf] at h
          obtain rfl : (e.1, x) = pf := Option.some.inj h
          simpa [beq_iff_eq] using List.find?_some hf
      | none =>
          simp only [hf] at h
          exact ih fid pf h

/-- After pruning with an ignore set containing an id, that id can no
longer be looked up among the visible findings. -/
theorem findFindingById_prune_none (ids : List String) (fid : String) (hmem : fid ∈ ids) :
    ∀ entries, findFindingById (pruneIgnoredEntries ids entries) fid = none := by
  intro entries
  induction entries with
  | nil => rfl
  | cons e rest ih =>
      simp only [pruneIgnoredEntries, List.filterMap_cons]
      split
      · exact ih
      · next heq =>
          split at heq
          · exact absurd heq (by simp)
          · next hne =>
              obtain rfl := Option.some.inj heq
              simp only [findFindingById]
              have hnone : ((e.2.filter (fun f => decide (f.id ∉ ids))).find?
                  (fun x => x.id == fid)) = none := by
                rw [List.find?_eq_none]
                intro x hx
                have hx2 := (List.mem_filter.mp hx).2
                have hnot : x.id ∉ ids := of_decide_eq_true hx2
                simp only [beq_iff_eq]
                intro heq2
                rw [heq2] at hnot
                exact hnot hmem
              simp only [hnone]
              exact ih

/-- C5, counterexample.  The claim asserts pairwise-distinct fingerprints
in the persisted suppression set after any sequence of ignore actions.
Ignoring two distinct findings that carry the same fingerprint (identical
matched content in the same file under the same rule) appends two records
with the same fingerprint — `addToWorkspaceIgnored` performs no
fingerprint deduplication. -/
theorem c5_counterexample :
    ((ignoreFinding none (ignoreFinding none sAB "1" 100) "2" 200).workspaceIgnored.map
        (fun r => r.persistentId)) = ["P", "P"]
    ∧ ¬ ((ignoreFinding none (ignoreFinding none sAB "1" 100) "2" 200).workspaceIgnored.map
        (fun r => r.persistentId)).Nodup := by
  exact ⟨by decide, by decide⟩

/-- C5, amended.  Ignoring the same finding (same session id) twice is a
no-op — the first ignore removes it from the visible set, so the second
leaves the state unchanged; but the suppression set is only deduplicated
per session id, not per fingerprint: two distinct findings with equal
fingerprints yield duplicate-fingerprint records. -/
theorem c5_amended (root : Option String) (s : DecoratorState) (fid : String) (t1 t2 : Int) :
    ignoreFinding root (ignoreFinding root s fid t1) fid t2 = ignoreFinding root s fid t1 := by
  cases h : findFindingById s.findingsByFilePath fid with
  | none => simp [ignoreFinding, h]
  | some pf =>
      have hid : pf.2.id = fid := findFindingById_id_eq _ _ _ h
      simp only [ignoreFinding, h]
      have hnone : findFindingById
          (pruneIgnoredEntries (pf.2.id :: s.ignoredIds) s.findingsByFilePath) fid = none :=
        findFindingById_prune_none _ _ (by rw [hid]; exact List.mem_cons_self _ _) _
      simp [ignoreFinding, hnone]

/-- The explicit `Math.max` model agrees with `max`. -/
theorem jsMaxI_eq_max (a b : Int) : jsMaxI a b = max a b := by
  rw [jsMaxI, max_def]

/-- The explicit `Math.min` model agrees with `min`. -/
theorem jsMinI_eq_min (a b : Int) : jsMinI a b = min a b := by
  rw [jsMinI, min_def]

/-! ## C6: missing scanner executable and the per-pattern error policy -/

/-- C6, counterexample.  The claim says an ENOENT (scanner not found)
condition aborts the run and the remaining rules are not executed.  In a
two-pattern run whose first pattern's scanner is missing, the loop
reports the error and still executes the second pattern, whose finding
appears in the results. -/
theorem c6_counterexample :
    ((runAnalysisLoop none noContents
        (fun p => executePatternRg idGen0 p 0 (outcomesMissingTool p)) [pRip1, pRip2]).1.map
        (fun r => r.patternName) = ["p2"])
    ∧ (runAnalysisLoop none noContents
        (fun p => executePatternRg idGen0 p 0 (outcomesMissingTool p)) [pRip1, pRip2]).2
        = [("p1", ExecError.toolNotFound
            "Ripgrep executable not found. Please check your ripgrep installation or configure greppy.ripgrepPath.")] := by
  exact ⟨rfl, rfl⟩

/-- C6, amended.  An ENOENT rejection is escalated out of
`executePattern` as the distinguished descriptive tool-not-found error
(distinct from the "no matches" case), but `runAnalysis` catches every
per-pattern error — this one included — reports it, and continues with
the remaining rules; the run is not aborted, and other per-rule errors
surface to the user the same way. -/
theorem c6_amended (root : Option String) (contents : String → Option String)
    (execute : PatternConfig → Except ExecError (List FindingResult))
    (p : PatternConfig) (rest : List PatternConfig) (e : ExecError)
    (idGen : Nat → String) (ts : Int) (stderr : String) :
    (execute p = .error e →
      runAnalysisLoop root contents execute (p :: rest)
        = ((runAnalysisLoop root contents execute rest).1,
           (p.name, e) :: (runAnalysisLoop root contents execute rest).2))
    ∧ executePatternRg idGen p ts (.failure none stderr (some "ENOENT"))
        = .error (.toolNotFound
            "Ripgrep executable not found. Please check your ripgrep installation or configure greppy.ripgrepPath.") := by
  constructor
  · intro he
    simp only [runAnalysisLoop, he]
  · simp only [executePatternRg]
    rw [if_neg (by simp)]
    simp

/-- C6, witness: the amended theorem applied to a one-pattern run whose
scanner is missing — the loop ends with no findings and the reported
tool-not-found error. -/
theorem c6_amended_witness :
    runAnalysisLoop none noContents
        (fun p => executePatternRg idGen0 p 0 (outcomesMissingTool p)) [pRip1]
      = ([], [("p1", ExecError.toolNotFound
          "Ripgrep executable not found. Please check your ripgrep installation or configure greppy.ripgrepPath.")]) := by
  have h := (c6_amended none noContents
      (fun p => executePatternRg idGen0 p 0 (outcomesMissingTool p)) pRip1 []
      (.toolNotFound
        "Ripgrep executable not found. Please check your ripgrep installation or configure greppy.ripgrepPath.")
      idGen0 0 "").1 rfl
  exact h

/-! ## C7: context extraction -/

/-- C7, counterexample.  The claim says an out-of-range line number
yields Absent.  On a two-line file with line number 10 the source instead
returns a present-but-empty window whose start exceeds its end. -/
theorem c7_counterexample :
    getContextContent (some "a\nb") 10 3
      = some { content := "", startLine := 7, endLine := 2 } := by
  decide

/-- C7, amended.  A failed file read yields Absent and the finding is
still produced, with its context fields unchanged and its fingerprint
set; a successful read yields the inclusive 1-based window
`[max(1, line - radius), min(lastLine, line + radius)]` of the file's
lines joined as text — in-range line numbers give exactly the
`2 * radius + 1`-line window; but an out-of-range line number does not
yield Absent (it yields a clamped, possibly empty window). -/
theorem c7_amended (root : Option String) (f : FindingResult) (content : String)
    (lineNumber r : Int) :
    (getContextContent none lineNumber r = none)
    ∧ ((enhanceFinding root none f).contextContent = f.contextContent
       ∧ (enhanceFinding root none f).contextStart = f.contextStart
       ∧ (enhanceFinding root none f).contextEnd = f.contextEnd
       ∧ (enhanceFinding root none f).persistentId = some (generatePersistentId root f))
    ∧ (0 ≤ r → 1 ≤ lineNumber - r →
        lineNumber + r ≤ ((jsSplit '\n' content).length : Int) →
        getContextContent (some content) lineNumber r
          = some { content := String.intercalate "\n"
                     (((jsSplit '\n' content).drop (lineNumber - r - 1).toNat).take
                       (2 * r + 1).toNat),
                   startLine := lineNumber - r, endLine := lineNumber + r }) := by
  refine ⟨rfl, ?_, ?_⟩
  · simp [enhanceFinding, getContextContent]
  · intro hr h1 h2
    have hs : jsMaxI 1 (lineNumber - r) = lineNumber - r := by
      rw [jsMaxI_eq_max]
      omega
    have he : jsMinI (((jsSplit '\n' content).length : Int)) (lineNumber + r)
        = lineNumber + r := by
      rw [jsMinI_eq_min]
      omega
    have hslice : jsSliceList (jsSplit '\n' content) (lineNumber - r - 1) (lineNumber + r)
        = ((jsSplit '\n' content).drop (lineNumber - r - 1).toNat).take (2 * r + 1).toNat := by
      simp only [jsSliceList, jsMaxI_eq_max, jsMinI_eq_min]
      rw [if_neg (by omega), if_neg (by omega),
        min_eq_left (by omega), min_eq_left (by omega)]
      congr 1
      omega
    simp only [getContextContent, hs, he, hslice]

/-- C7, witness: the amended theorem applied at a concrete nine-line file
with line number 5 and the default radius 3 — lines 2 through 8 joined. -/
theorem c7_amended_witness :
    getContextContent none 5 3 = none
    ∧ getContextContent (some "l1\nl2\nl3\nl4\nl5\nl6\nl7\nl8\nl9") 5 3
        = some { content := "l2\nl3\nl4\nl5\nl6\nl7\nl8", startLine := 2, endLine := 8 } := by
  constructor
  · exact (c7_amended none fA "x" 5 3).1
  · have h := (c7_amended none fA "l1\nl2\nl3\nl4\nl5\nl6\nl7\nl8\nl9" 5 3).2.2
      (by decide) (by decide) (by decide)
    exact h.trans (by decide)

/-! ## C8: file-type applicability -/

/-- C8, counterexample.  The claim says a weggli rule never applies to a
file whose extension is outside the fixed C/C++ set, regardless of its
configured `supportedFileTypes`.  A weggli rule configured with
`supportedFileTypes = ["py"]` applies to a `.py` file, whose extension is
not in the C/C++ set. -/
theorem c8_counterexample :
    isPatternSupportedForFileType pWeggliPy "py" = true
    ∧ "py" ∉ COMMON_FILE_TYPES_cpp := ⟨by decide, by decide⟩

/-- C8, amended.  A rule applies iff: its `supportedFileTypes` is present
and non-empty and contains the wildcard or the file's extension (this
list is respected completely, also for weggli rules); or
`supportedFileTypes` is absent or empty, in which case a weggli rule is
restricted to the fixed C/C++ extension set and any other rule applies to
every file. -/
theorem c8_amended (pattern : PatternConfig) (ext : String) :
    isPatternSupportedForFileType pattern ext = true ↔
      ((∃ types, pattern.supportedFileTypes = some types ∧ types ≠ []
          ∧ ("*" ∈ types ∨ ext ∈ types))
       ∨ ((pattern.supportedFileTypes = none ∨ pattern.supportedFileTypes = some [])
          ∧ (pattern.tool = Tool.weggli → ext ∈ COMMON_FILE_TYPES_cpp))) := by
  cases hst : pattern.supportedFileTypes with
  | none =>
      by_cases ht : pattern.tool = Tool.weggli <;>
        simp [isPatternSupportedForFileType, hst, ht]
  | some types =>
      by_cases hne : types = []
      · subst hne
        by_cases ht : pattern.tool = Tool.weggli <;>
          simp [isPatternSupportedForFileType, hst, ht]
      · by_cases hw : "*" ∈ types
        · simp [isPatternSupportedForFileType, hst, hne, hw]
        · by_cases hm : ext ∈ types <;>
            simp [isPatternSupportedForFileType, hst, hne, hw, hm]

/-- C8, witness: the amended theorem applied to a ripgrep rule without
`supportedFileTypes`, which applies to every extension. -/
theorem c8_amended_witness : isPatternSupportedForFileType pRip1 "py" = true :=
  (c8_amended pRip1 "py").mpr
    (Or.inr ⟨Or.inl rfl, fun h => absurd h (by decide)⟩)

/-! ## C9: the "no matches" exit condition is not an error -/

/-- C9.  A scanner rejection with exit code 1 and empty stderr is the
distinguished "no matches" condition: the ripgrep branch returns an empty
result list (not an error), and the weggli per-file loop skips such files
silently, producing no results and no logged errors. -/
theorem c9_theorem (idGen : Nat → String) (pattern : PatternConfig) (ts : Int)
    (code : Option String) (files : List String)
    (parseOut : String → List FindingResult) (fileOutcome : String → ExecResult) :
    executePatternRg idGen pattern ts (.failure (some 1) "" code) = .ok []
    ∧ ((∀ fl ∈ files, fileOutcome fl = .failure (some 1) "" code) →
        weggliFileLoop parseOut fileOutcome files = ([], [])) := by
  constructor
  · rfl
  · induction files with
    | nil => intro _; rfl
    | cons fl rest ih =>
        intro hall
        have h1 := hall fl (by simp)
        have hrest := ih (fun x hx => hall x (by simp [hx]))
        simp [weggliFileLoop, h1, hrest]

/-- C9, witness: a concrete no-match outcome yields an empty result set
from the ripgrep branch and an empty, log-free weggli loop. -/
theorem c9_witness :
    executePatternRg idGen0 pRip1 0 (.failure (some 1) "" none) = .ok []
    ∧ weggliFileLoop (fun _ => []) (fun _ => .failure (some 1) "" none) ["a.c"] = ([], []) :=
  ⟨(c9_theorem idGen0 pRip1 0 none ["a.c"] (fun _ => [])
      (fun _ => .failure (some 1) "" none)).1,
   (c9_theorem idGen0 pRip1 0 none ["a.c"] (fun _ => [])
      (fun _ => .failure (some 1) "" none)).2 (fun fl _ => rfl)⟩

/-! ## C10: the ripgrep line parser trims matched content -/

/-- `parseInt` on a pure digit run returns its decimal value. -/
theorem jsParseInt10_digits (num : List Char) (hnum : num ≠ [])
    (hdig : ∀ d ∈ num, d.isDigit = true) :
    jsParseInt10 num = some ((digitsToNat num : Nat) : Int) := by
  obtain ⟨d, ds, rfl⟩ : ∃ d ds, num = d :: ds := by
    cases num with
    | nil => exact absurd rfl hnum
    | cons d ds => exact ⟨d, ds, rfl⟩
  have hd : d.isDigit = true := hdig d (by simp)
  have hdw : d.isWhitespace = false := isDigit_not_ws d hd
  have h1 : (d :: ds).dropWhile (fun ch => ch.isWhitespace) = d :: ds := by
    simp [List.dropWhile_cons, hdw]
  simp only [jsParseInt10]
  rw [h1]
  simp only [List.headD_cons]
  rw [if_neg (isDigit_ne_minus d hd),
    if_neg (show ¬(d = '-' ∨ d = '+') by
      push_neg
      exact ⟨isDigit_ne_minus d hd, isDigit_ne_plus d hd⟩)]
  rw [takeWhile_eq_self_of_all _ (d :: ds) hdig]
  rw [if_neg hnum, one_mul]

/-- C10.  A ripgrep output line `path:lineNumber:content` (path without
colons, line number a non-empty digit run) parses to a finding whose
`matchedContent` is the content with leading and trailing whitespace
removed; consequently two lines that differ only in surrounding
whitespace of the content produce findings with equal fingerprints. -/
theorem c10_theorem (pattern : PatternConfig) (ts : Int) (newId newId2 : String)
    (p num c c2 : List Char)
    (hp : ∀ ch ∈ p, ch ≠ ':') (hnum : num ≠ []) (hdig : ∀ d ∈ num, d.isDigit = true) :
    parseRgLine pattern ts newId ⟨p ++ ':' :: (num ++ ':' :: c)⟩
      = some { id := newId, patternName := pattern.name,
               patternDescription := pattern.description,
               tool := pattern.tool, severity := pattern.severity,
               filePath := ⟨p⟩, lineNumber := ((digitsToNat num : Nat) : Int),
               matchedContent := jsTrim (String.mk c),
               codeIndicator := some (getCodeIndicator ⟨p⟩),
               timestamp := ts }
    ∧ (jsTrim (String.mk c) = jsTrim (String.mk c2) → ∀ root : Option String,
        (parseRgLine pattern ts newId ⟨p ++ ':' :: (num ++ ':' :: c)⟩).map
            (fun r => generatePersistentId root r)
          = (parseRgLine pattern ts newId2 ⟨p ++ ':' :: (num ++ ':' :: c2)⟩).map
            (fun r => generatePersistentId root r)) := by
  have hpdec : ∀ y ∈ p, (fun ch => decide (ch = ':')) y = false := by
    intro y hy
    simpa using hp y hy
  have hndec : ∀ y ∈ num, (fun ch => decide (ch = ':')) y = false := by
    intro y hy
    simpa using isDigit_ne_colon y (hdig y hy)
  have hmain : ∀ (nid : String) (cc : List Char),
      parseRgLine pattern ts nid ⟨p ++ ':' :: (num ++ ':' :: cc)⟩
        = some { id := nid, patternName := pattern.name,
                 patternDescription := pattern.description,
                 tool := pattern.tool, severity := pattern.severity,
                 filePath := ⟨p⟩, lineNumber := ((digitsToNat num : Nat) : Int),
                 matchedContent := jsTrim (String.mk cc),
                 codeIndicator := some (getCodeIndicator ⟨p⟩),
                 timestamp := ts } := by
    intro nid cc
    have hf1 : List.findIdx? (fun ch => decide (ch = ':')) (p ++ ':' :: (num ++ ':' :: cc))
        = some p.length := by
      have := findIdx?_append_cons (fun ch => decide (ch = ':')) ':' (num ++ ':' :: cc)
        (by decide) p 0 hpdec
      simpa using this
    have hd1 : List.drop (p.length + 1) (p ++ ':' :: (num ++ ':' :: cc))
        = num ++ ':' :: cc := by
      rw [List.append_cons]
      exact List.drop_left' (by simp)
    have ht1 : List.take p.length (p ++ ':' :: (num ++ ':' :: cc)) = p :=
      @List.take_left' Char p (':' :: (num ++ ':' :: cc)) p.length rfl
    have hf2 : List.findIdx? (fun ch => decide (ch = ':')) (num ++ ':' :: cc)
        = some num.length := by
      have := findIdx?_append_cons (fun ch => decide (ch = ':')) ':' cc
        (by decide) num 0 hndec
      simpa using this
    have ht2 : List.take num.length (num ++ ':' :: cc) = num :=
      @List.take_left' Char num (':' :: cc) num.length rfl
    have hd2 : List.drop (num.length + 1) (num ++ ':' :: cc) = cc := by
      rw [List.append_cons]
      exact List.drop_left' (by simp)
    have hparse := jsParseInt10_digits num hnum hdig
    simp only [parseRgLine, hf1, hd1, ht1, hf2, ht2, hd2, hparse]
  refine ⟨hmain newId c, ?_⟩
  intro htrim root
  rw [hmain newId c, hmain newId2 c2]
  simp only [Option.map_some']
  congr 1
  simp only [generatePersistentId]
  rw [htrim]

/-- C10, witness: two concrete lines differing only in surrounding
whitespace of the matched text receive the same fingerprint. -/
theorem c10_witness :
    (parseRgLine pRip1 0 "u" ⟨"a.ts".data ++ ':' :: ("10".data ++ ':' :: "  x ".data)⟩).map
        (fun r => generatePersistentId none r)
      = (parseRgLine pRip1 0 "v" ⟨"a.ts".data ++ ':' :: ("10".data ++ ':' :: "x".data)⟩).map
        (fun r => generatePersistentId none r) :=
  (c10_theorem pRip1 0 "u" "v" "a.ts".data "10".data "  x ".data "x".data
    (by decide) (by decide) (by decide)).2 (by decide) none

end Greppy


